import Mathlib

/-
Shallow embedding of the cmaves/ecp transmitting side
(src/src/bluetooth/bluetooth_sender.rs, plus the LedMsg/Command data model
visible in src/src/tests.rs).  The wire codec (LedMsg::serialize) lives in a
crate module that is not part of the provided sources; it is modelled from the
spec where noted.  Machine integers are modelled as Nat with explicit
mod 2^32 where wrapping matters; i64/i32 values are modelled as Int.
-/

/-- 32-bit wrapping subtraction `a.wrapping_sub(b)` on u32 values
(bluetooth_sender.rs lines 70, 211, 222). -/
def wrappingSub32 (a b : Nat) : Nat :=
  (a + (2 ^ 32 - b % 2 ^ 32)) % 2 ^ 32

/-- The Rust cast `x as i32` of a u32 value `d < 2^32`: two's-complement
reinterpretation, yielding a signed value in [-2^31, 2^31). -/
def toSigned (d : Nat) : Int :=
  if d < 2 ^ 31 then (d : Int) else (d : Int) - 2 ^ 32

/-- The Rust expression `(d as i32).abs()` under release (wrapping) overflow
semantics: the absolute value of i32::MIN overflows back to i32::MIN
(bluetooth_sender.rs lines 211 and 222). -/
def wrapAbsI32 (d : Nat) : Int :=
  if toSigned d = -(2 ^ 31) then -(2 ^ 31) else |toSigned d|

/-- Command, the tagged per-element command (src/src/tests.rs lines 21-27):
Null carries no payload, the other four carry an 8-bit intensity. -/
inductive Command
  | Null
  | Flat (intensity : Nat)
  | FlatStack (intensity : Nat)
  | PulseLinear (intensity : Nat)
  | PulseQuadratic (intensity : Nat)
deriving DecidableEq, Repr

/-- LedMsg, the per-element timestamped command value
(field set as in src/src/tests.rs lines 13-18).  element is a u8 (so is
< 256 whenever a hypothesis needs it), cur_time a u32. -/
structure LedMsg where
  cmd : Command
  cur_time : Nat
  color : Nat
  element : Nat
deriving DecidableEq, Repr

/-- Payload bytes carried by a command tag: Null has none, the other four an
intensity byte. -/
def cmdPayloadLen : Command → Nat
  | Command.Null => 0
  | _ => 1

/-- Modelled from the spec: the encoded length of one LedMsg record in the
wire codec, whose source (LedMsg::serialize) is not under src/.  The spec
fixes only that records are self-describing and that baseline mode encodes
per-message timestamps as small deltas; we fix a concrete layout: element
byte, color byte, tag byte, payload, then a 2-byte delta (with baseline) or a
full 4-byte timestamp (without). -/
def msgSize (hasBase : Bool) (m : LedMsg) : Nat :=
  3 + cmdPayloadLen m.cmd + (if hasBase then 2 else 4)

/-- Modelled from the spec: header length of a packet — the 4-byte baseline
timestamp when one is supplied, nothing otherwise. -/
def headerLen : Option Nat → Nat
  | some _ => 4
  | none => 0

/-- Modelled from the spec: greedy packing of the longest prefix of the
message list whose records fit in `room` bytes, returning (bytes, consumed). -/
def greedyPack (hasBase : Bool) : List LedMsg → Nat → Nat × Nat
  | [], _ => (0, 0)
  | m :: rest, room =>
      if msgSize hasBase m ≤ room then
        (msgSize hasBase m + (greedyPack hasBase rest (room - msgSize hasBase m)).1,
          (greedyPack hasBase rest (room - msgSize hasBase m)).2 + 1)
      else (0, 0)

/-- Modelled from the spec: `LedMsg::serialize(messages, buf, baseline)`
(not under src/) returns `(bytes_written, messages_consumed)`, greedily
packing the longest prefix that fits in the buffer after the header; when not
even one message plus header fits it returns `(header_len_or_0, 0)` and never
fabricates partial records. -/
def LedMsg.serialize (msgs : List LedMsg) (cap : Nat) (baseline : Option Nat) :
    Nat × Nat :=
  if headerLen baseline ≤ cap then
    (headerLen baseline + (greedyPack baseline.isSome msgs (cap - headerLen baseline)).1,
      (greedyPack baseline.isSome msgs (cap - headerLen baseline)).2)
  else (0, 0)

/-- The per-batch notification loop of the control loop
(bluetooth_sender.rs lines 244-264): while messages remain, serialize the
remaining suffix into a chunk of `cap` bytes with baseline `st` and push it,
advancing by the consumed count.  Fuel makes the unbounded `while` loop
structural: `none` means the loop did not finish within `fuel` iterations;
`some chunks` returns the per-chunk consumed counts, one entry per pushed
notification. -/
def notifyLoop (cap st : Nat) : Nat → List LedMsg → Option (List Nat)
  | _, [] => some []
  | 0, _ :: _ => none
  | fuel + 1, m :: rest =>
      match notifyLoop cap st fuel
          (List.drop (LedMsg.serialize (m :: rest) cap (some st)).2 (m :: rest)) with
      | some res => some ((LedMsg.serialize (m :: rest) cap (some st)).2 :: res)
      | none => none

/-- State of the latency controller captured by the write-callback closure
(bluetooth_sender.rs lines 59-61 and the `wait` cell, line 39).  `wait` is
the send interval in seconds, modelled as an exact rational (the code uses
Duration::mul_f64). -/
structure LatState where
  latTotal : Int
  latCnt : Nat
  lastLatTotal : Int
  wait : ℚ
deriving DecidableEq, Repr

/-- Initial latency-controller state: counters zero, interval 1/32 s
(bluetooth_sender.rs lines 39, 59-61). -/
def initLat : LatState :=
  { latTotal := 0, latCnt := 0, lastLatTotal := 0, wait := 1 / 32 }

/-- One echo sample through the write callback (bluetooth_sender.rs lines
63-90): `diff = last_sent.wrapping_sub(time)` is a u32 and `diff as i64`
zero-extends it; every 32nd sample folds the window and rescales the
interval, clamped to 500 ms. -/
def writeStep (lastSent time : Nat) (s : LatState) : LatState :=
  let diff : Nat := wrappingSub32 lastSent time
  let cnt := s.latCnt + 1
  let total := s.latTotal + (diff : Int)
  if 32 ≤ cnt then
    let growth := total - s.lastLatTotal
    let mult : ℚ := if growth ≤ 0 then 31 / 32 else 40 / 32
    { latTotal := 0, latCnt := 0, lastLatTotal := total,
      wait := min (s.wait * mult) (1 / 2) }
  else
    { s with latTotal := total, latCnt := cnt }

/-- Folding a sequence of (last_sent, observed) echo samples through the
write callback from the initial state. -/
def runLat (samples : List (Nat × Nat)) : LatState :=
  samples.foldl (fun s p => writeStep p.1 p.2 s) initLat

/-- The clock resync-notify decision (bluetooth_sender.rs lines 211-213):
notify when the wrapping-abs of the signed wrapped jump exceeds 5000 time
units, or more than 5000 ms of wall time passed since the last notification. -/
def notifyTime (cur old elapsedMs : Nat) : Bool :=
  decide (5000 < wrapAbsI32 (wrappingSub32 cur old)) || decide (5000 < elapsedMs)

/-- One store upsert `mut_msgs[msg.element as usize] = Some(*msg)`
(bluetooth_sender.rs line 217), with the bounds check made explicit: `none`
models the out-of-bounds index panic that Rust would raise. -/
def upsertChecked (store : List (Option LedMsg)) (m : LedMsg) :
    Option (List (Option LedMsg)) :=
  if m.element < store.length then some (store.set m.element (some m)) else none

/-- Upserting a whole batch into the store in order
(bluetooth_sender.rs lines 215-218). -/
def upsertBatch (store : List (Option LedMsg)) : List LedMsg →
    Option (List (Option LedMsg))
  | [] => some store
  | m :: rest =>
      match upsertChecked store m with
      | some st => upsertBatch st rest
      | none => none

/-- Number of occupied (non-empty) slots of the store. -/
def occupied (store : List (Option LedMsg)) : Nat :=
  (store.filterMap id).length

/-- The prune pass over the store (bluetooth_sender.rs lines 219-228): a slot
is cleared when the wrapping-abs of the signed wrapped age of its entry
relative to `t` exceeds 5,000,000 time units. -/
def prune (t : Nat) (store : List (Option LedMsg)) : List (Option LedMsg) :=
  store.map fun slot =>
    match slot with
    | some v =>
        if 5000000 < wrapAbsI32 (wrappingSub32 t v.cur_time) then none else some v
    | none => none

/-- The collection phase of `read_fn` for characteristic `i`
(bluetooth_sender.rs lines 101-112): the non-empty entries of the 64-slot
sub-range `[64*i, 64*i+64)` of the store, in slot order. -/
def collectRange (store : List (Option LedMsg)) (i : Nat) : List LedMsg :=
  ((store.drop (64 * i)).take 64).filterMap id

/-- The codec baseline chosen by `read_fn` (bluetooth_sender.rs line 114):
the first collected entry's timestamp, or 0 when none was collected. -/
def readBaseline (store : List (Option LedMsg)) (i : Nat) : Nat :=
  match (collectRange store i).head? with
  | some m => m.cur_time
  | none => 0

/-- The `read_fn` snapshot (bluetooth_sender.rs lines 101-119): serialize the
collected entries into the 512-byte attribute value with the chosen baseline,
returning the codec result (bytes_written, messages_consumed). -/
def read_fn (store : List (Option LedMsg)) (i : Nat) : Nat × Nat :=
  LedMsg.serialize (collectRange store i) 512 (some (readBaseline store i))

/-- Boolean well-formedness of one store slot: an occupied slot at index j
holds a message whose element id is j (the invariant the upsert at line 217
maintains). -/
def slotOk : Option LedMsg → Nat → Bool
  | some v, j => v.element == j
  | none, _ => true

/-- Well-formed store: every occupied slot holds the message addressed to it. -/
def wfStore (store : List (Option LedMsg)) : Prop :=
  ∀ j < store.length, slotOk (store.getD j none) j = true

/-- The crate error type, as used by the sender (crate::Error variants
appearing in bluetooth_sender.rs lines 289, 315, 320, 340). -/
inductive RError
  | unrecoverable (msg : String)
  | badInput (msg : String)
deriving DecidableEq, Repr

/-- How the control-loop thread ended: cleanly (Ok), with a fatal error, or
by panicking. -/
inductive LoopExit
  | ok
  | err (e : RError)
  | panicked
deriving DecidableEq, Repr

/-- The Status handle field of BluetoothSender: Running carries the join
outcome the thread will yield. -/
inductive TStatus
  | running (exit : LoopExit)
  | terminated
deriving DecidableEq, Repr

/-- Outcome of a call to `send` on the disconnected path: either a returned
Result, or a propagated panic of the calling thread. -/
inductive SendOutcome
  | ret (r : Except RError Unit)
  | panics
deriving Repr

/-- The disconnected branch of `<BluetoothSender as Sender>::send`
(bluetooth_sender.rs lines 331-344): when the queue send fails and the handle
is still Running, the thread is joined and `join().unwrap()` either yields
the loop's own Result or panics if the loop panicked; when the handle was
already Terminated, an Unrecoverable error is returned.  The second component
is the handle state after the call. -/
def sendDisconnected : TStatus → SendOutcome × TStatus
  | TStatus.running LoopExit.ok => (SendOutcome.ret (Except.ok ()), TStatus.terminated)
  | TStatus.running (LoopExit.err e) =>
      (SendOutcome.ret (Except.error e), TStatus.terminated)
  | TStatus.running LoopExit.panicked => (SendOutcome.panics, TStatus.terminated)
  | TStatus.terminated =>
      (SendOutcome.ret (Except.error (RError.unrecoverable
        "BluetoothSender: Sending thread is disconnected!")), TStatus.terminated)

/-- Whether a send outcome is a returned error value. -/
def isErrReturn : SendOutcome → Bool
  | SendOutcome.ret (Except.error _) => true
  | _ => false

lemma wrappingSub32_lt (a b : Nat) : wrappingSub32 a b < 2 ^ 32 :=
  Nat.mod_lt _ (by norm_num)

lemma toSigned_eq_min_iff (d : Nat) (h32 : d < 2 ^ 32) :
    toSigned d = -(2 ^ 31) ↔ d = 2 ^ 31 := by
  unfold toSigned
  split <;> omega

lemma wrapAbsI32_of_ne (d : Nat) (h32 : d < 2 ^ 32) (h : d ≠ 2 ^ 31) :
    wrapAbsI32 d = |toSigned d| := by
  unfold wrapAbsI32
  rw [if_neg fun he => h ((toSigned_eq_min_iff d h32).mp he)]

/-- C10 counterexample: at the timestamp pair (2^31, 0) the wrapping
difference is exactly 2^31 and the i32 absolute value overflows, yielding the
negative value -2^31 rather than a non-negative result, so the claimed
totality fails at this input. -/
theorem wrapAbs_overflow_cex :
    wrapAbsI32 (wrappingSub32 2147483648 0) = -2147483648 ∧
      ¬ 0 ≤ wrapAbsI32 (wrappingSub32 2147483648 0) := by decide

/-- C10 (amended): for every pair of 32-bit timestamps whose wrapping
difference is not exactly 2^31, the wrapped-age magnitude computation is the
genuine absolute value of the signed difference and hence non-negative; at a
wrapping difference of exactly 2^31 the absolute value overflows to -2^31. -/
theorem wrapAbs_total_amended (a b : Nat) :
    (wrappingSub32 a b ≠ 2 ^ 31 →
      0 ≤ wrapAbsI32 (wrappingSub32 a b) ∧
        wrapAbsI32 (wrappingSub32 a b) = |toSigned (wrappingSub32 a b)|)
    ∧ (wrappingSub32 a b = 2 ^ 31 →
        wrapAbsI32 (wrappingSub32 a b) = -(2 ^ 31)) := by
  constructor
  · intro h
    have he := wrapAbsI32_of_ne _ (wrappingSub32_lt a b) h
    exact ⟨he ▸ abs_nonneg _, he⟩
  · intro h
    rw [h]
    decide

/-- Witness for the amended C10 statement at the concrete pair (5, 3). -/
theorem wrapAbs_total_amended_wit :
    0 ≤ wrapAbsI32 (wrappingSub32 5 3) ∧
      wrapAbsI32 (wrappingSub32 5 3) = |toSigned (wrappingSub32 5 3)| :=
  (wrapAbs_total_amended 5 3).1 (by decide)

/-- C2 counterexample: at last_sent = 0 and observed = 1 the signed wrapped
difference is -1, but the write callback adds the zero-extended unsigned
difference 4294967295 to the accumulator, so the claim fails at this input. -/
theorem latency_sample_unsigned_cex :
    (writeStep 0 1 initLat).latTotal = 4294967295 ∧
      toSigned (wrappingSub32 0 1) = -1 ∧
      (writeStep 0 1 initLat).latTotal ≠ toSigned (wrappingSub32 0 1) := by decide

/-- C2 (amended): on every echo sample processed before a window boundary,
the quantity added to the accumulator is the 32-bit wrapping difference
last_sent - observed zero-extended to a non-negative value in [0, 2^32)
(the Rust cast `diff as i64` of a u32), and the sample count is incremented
by one. -/
theorem latency_sample_amended (a b : Nat) (s : LatState)
    (h : s.latCnt + 1 < 32) :
    (writeStep a b s).latTotal = s.latTotal + (wrappingSub32 a b : Int)
    ∧ (writeStep a b s).latCnt = s.latCnt + 1
    ∧ 0 ≤ ((wrappingSub32 a b : Nat) : Int)
    ∧ ((wrappingSub32 a b : Nat) : Int) < 2 ^ 32 := by
  have hc : ¬ 32 ≤ s.latCnt + 1 := by omega
  refine ⟨by simp [writeStep, hc], by simp [writeStep, hc], by positivity, ?_⟩
  exact_mod_cast wrappingSub32_lt a b

/-- Witness for the amended C2 statement at the concrete sample (7, 3) from
the initial state. -/
theorem latency_sample_amended_wit :
    (writeStep 7 3 initLat).latTotal = initLat.latTotal + (wrappingSub32 7 3 : Int)
    ∧ (writeStep 7 3 initLat).latCnt = initLat.latCnt + 1
    ∧ 0 ≤ ((wrappingSub32 7 3 : Nat) : Int)
    ∧ ((wrappingSub32 7 3 : Nat) : Int) < 2 ^ 32 :=
  latency_sample_amended 7 3 initLat (by decide)

/-- C5 counterexample: a batch whose wrapped clock jump is exactly 2^31
(magnitude far above the 5000-unit threshold) arriving with no wall time
elapsed triggers no notification, because the overflowing absolute value is
negative; the claimed if-and-only-if fails at this input. -/
theorem resync_notify_cex :
    5000 < |toSigned (wrappingSub32 2147483648 0)| ∧
      notifyTime 2147483648 0 0 = false := by decide

/-- C5 (amended): a resync notification is pushed iff the magnitude of the
signed wrapped jump exceeds 5000 time units or more than 5000 ms elapsed
since the last notification, except when the wrapping difference is exactly
2^31: there the i32 absolute value overflows to a negative value and only the
elapsed-time condition can trigger. -/
theorem resync_notify_amended (c o e : Nat) :
    (wrappingSub32 c o ≠ 2 ^ 31 →
      (notifyTime c o e = true ↔
        5000 < |toSigned (wrappingSub32 c o)| ∨ 5000 < e))
    ∧ (wrappingSub32 c o = 2 ^ 31 →
        (notifyTime c o e = true ↔ 5000 < e)) := by
  constructor
  · intro h
    have he := wrapAbsI32_of_ne _ (wrappingSub32_lt c o) h
    simp [notifyTime, he]
  · intro h
    have hv : wrapAbsI32 (2 ^ 31) = -(2 ^ 31) := by decide
    rw [notifyTime, h, hv]
    simp

/-- Witness for the amended C5 statement: a jump of 1000 units with 6000 ms
elapsed does push a notification. -/
theorem resync_notify_amended_wit : notifyTime 1000 0 6000 = true :=
  ((resync_notify_amended 1000 0 6000).1 (by decide)).mpr (Or.inr (by norm_num))

/-- C3: exactly when the sample count reaches 32 the window folds: growth is
the updated accumulator minus the previous window sum, the interval is
rescaled by 31/32 when growth is non-positive and by 40/32 otherwise, the
result is clamped to at most 500 ms (1/2 s), and the window is reset
(previous sum takes the accumulator, accumulator and count return to zero);
on samples before the 32nd the interval is unchanged. -/
theorem latency_window_update (s : LatState) (a b : Nat) :
    (s.latCnt = 31 →
      (writeStep a b s).latTotal = 0
      ∧ (writeStep a b s).latCnt = 0
      ∧ (writeStep a b s).lastLatTotal = s.latTotal + (wrappingSub32 a b : Int)
      ∧ (writeStep a b s).wait =
          min (s.wait *
            (if s.latTotal + (wrappingSub32 a b : Int) - s.lastLatTotal ≤ 0
              then (31 : ℚ) / 32 else 40 / 32)) (1 / 2)
      ∧ (writeStep a b s).wait ≤ 1 / 2)
    ∧ (s.latCnt + 1 < 32 →
        (writeStep a b s).wait = s.wait
        ∧ (writeStep a b s).lastLatTotal = s.lastLatTotal) := by
  constructor
  · intro h
    have hc : 32 ≤ s.latCnt + 1 := by omega
    refine ⟨by simp [writeStep, hc], by simp [writeStep, hc],
      by simp [writeStep, hc], by simp [writeStep, hc], ?_⟩
    simp only [writeStep, hc, if_true]
    exact min_le_right _ _
  · intro h
    have hc : ¬ 32 ≤ s.latCnt + 1 := by omega
    exact ⟨by simp [writeStep, hc], by simp [writeStep, hc]⟩

/-- Witness for C3: a window-boundary state folds (count returns to 0 and the
interval is clamped below 1/2 s), while a mid-window state leaves the
interval untouched. -/
theorem latency_window_update_wit :
    (writeStep 3 1 ⟨5, 31, 0, 1 / 32⟩).latCnt = 0
    ∧ (writeStep 3 1 ⟨5, 31, 0, 1 / 32⟩).wait ≤ 1 / 2
    ∧ (writeStep 3 1 ⟨5, 3, 0, 1 / 32⟩).wait = (⟨5, 3, 0, 1 / 32⟩ : LatState).wait :=
  ⟨((latency_window_update ⟨5, 31, 0, 1 / 32⟩ 3 1).1 rfl).2.1,
    ((latency_window_update ⟨5, 31, 0, 1 / 32⟩ 3 1).1 rfl).2.2.2.2,
    ((latency_window_update ⟨5, 3, 0, 1 / 32⟩ 3 1).2 (by decide)).1⟩

lemma writeStep_wait_bounds (a b : Nat) (s : LatState)
    (h1 : 0 < s.wait) (h2 : s.wait ≤ 1 / 2) :
    0 < (writeStep a b s).wait ∧ (writeStep a b s).wait ≤ 1 / 2 := by
  by_cases hc : 32 ≤ s.latCnt + 1
  · have hm : (0 : ℚ) <
        (if s.latTotal + (wrappingSub32 a b : Int) - s.lastLatTotal ≤ 0
          then (31 : ℚ) / 32 else 40 / 32) := by
      split <;> norm_num
    constructor
    · simp only [writeStep, hc, if_true]
      exact lt_min (mul_pos h1 hm) (by norm_num)
    · simp only [writeStep, hc, if_true]
      exact min_le_right _ _
  · exact ⟨by simpa [writeStep, hc] using h1, by simpa [writeStep, hc] using h2⟩

/-- C4: the send interval starts at 1/32 s and stays in (0, 1/2 s] over every
sequence of echo samples: it never exceeds 500 ms and never reaches zero, no
matter how many consecutive shrink windows occur. -/
theorem latency_interval_invariant (samples : List (Nat × Nat)) :
    initLat.wait = 1 / 32
    ∧ 0 < (runLat samples).wait
    ∧ (runLat samples).wait ≤ 1 / 2 := by
  refine ⟨rfl, ?_⟩
  have key : ∀ (l : List (Nat × Nat)) (s : LatState),
      0 < s.wait → s.wait ≤ 1 / 2 →
      0 < (l.foldl (fun s p => writeStep p.1 p.2 s) s).wait
      ∧ (l.foldl (fun s p => writeStep p.1 p.2 s) s).wait ≤ 1 / 2 := by
    intro l
    induction l with
    | nil => exact fun s h1 h2 => ⟨h1, h2⟩
    | cons p tl ih =>
      intro s h1 h2
      have hstep := writeStep_wait_bounds p.1 p.2 s h1 h2
      exact ih _ hstep.1 hstep.2
  exact key samples initLat (by norm_num [initLat]) (by norm_num [initLat])

/-- C6: after pruning against reference time t, every entry whose signed
wrapped age exceeds 5,000,000 time units is cleared, and every entry whose
signed wrapped age has magnitude at most 5,000,000 — including entries up to
5,000,000 units in the future — remains in its slot with its stored value
unchanged. -/
theorem prune_age_spec (t : Nat) (store : List (Option LedMsg)) (i : Nat)
    (v : LedMsg) (hv : store[i]? = some (some v)) :
    ((5000000 : Int) < toSigned (wrappingSub32 t v.cur_time) →
      (prune t store)[i]? = some none)
    ∧ (|toSigned (wrappingSub32 t v.cur_time)| ≤ 5000000 →
      (prune t store)[i]? = some (some v)) := by
  have base : (prune t store)[i]? =
      some (if 5000000 < wrapAbsI32 (wrappingSub32 t v.cur_time)
        then none else some v) := by
    unfold prune
    rw [List.getElem?_map, hv]
    rfl
  constructor
  · intro h
    have hne : wrappingSub32 t v.cur_time ≠ 2 ^ 31 := by
      intro he
      rw [he] at h
      exact absurd h (by decide)
    rw [base, if_pos]
    rw [wrapAbsI32_of_ne _ (wrappingSub32_lt _ _) hne]
    exact lt_of_lt_of_le h (le_abs_self _)
  · intro h
    have hne : wrappingSub32 t v.cur_time ≠ 2 ^ 31 := by
      intro he
      rw [he] at h
      exact absurd h (by decide)
    rw [base, if_neg]
    rw [wrapAbsI32_of_ne _ (wrappingSub32_lt _ _) hne]
    exact not_lt.mpr h

/-- Witness for C6: with reference time 6,000,000, a stored entry stamped 0
(age 6,000,000 > 5,000,000) is cleared, while one stamped 5,999,000
(age 1000) survives unchanged. -/
theorem prune_age_spec_wit :
    (prune 6000000 [some (⟨Command.Null, 0, 0, 9⟩ : LedMsg)])[0]? = some none
    ∧ (prune 6000000 [some (⟨Command.Null, 5999000, 0, 2⟩ : LedMsg)])[0]?
        = some (some ⟨Command.Null, 5999000, 0, 2⟩) :=
  ⟨(prune_age_spec 6000000 [some ⟨Command.Null, 0, 0, 9⟩] 0
      ⟨Command.Null, 0, 0, 9⟩ rfl).1 (by decide),
    (prune_age_spec 6000000 [some ⟨Command.Null, 5999000, 0, 2⟩] 0
      ⟨Command.Null, 5999000, 0, 2⟩ rfl).2 (by decide)⟩

/-- C7 counterexample: when the exited control loop panicked, the
disconnected send path does not return an error value — `join().unwrap()`
propagates the panic — so the claim that send always returns an error and
never panics fails at this input. -/
theorem send_after_exit_cex :
    isErrReturn (sendDisconnected (TStatus.running LoopExit.panicked)).1 = false
    ∧ (sendDisconnected (TStatus.running LoopExit.panicked)).1
        = SendOutcome.panics :=
  ⟨rfl, rfl⟩

/-- C7 (amended): when the loop has already exited, send synchronously reaps
the exit status (the handle is Terminated afterwards in every case) and
surfaces the loop's own Result: its error when it exited with an error, but
success when it exited cleanly, and a propagated panic when it panicked; a
call finding the handle already Terminated returns an error. -/
theorem send_after_exit_amended :
    (∀ e : RError, sendDisconnected (TStatus.running (LoopExit.err e))
        = (SendOutcome.ret (Except.error e), TStatus.terminated))
    ∧ sendDisconnected (TStatus.running LoopExit.ok)
        = (SendOutcome.ret (Except.ok ()), TStatus.terminated)
    ∧ sendDisconnected (TStatus.running LoopExit.panicked)
        = (SendOutcome.panics, TStatus.terminated)
    ∧ isErrReturn (sendDisconnected TStatus.terminated).1 = true
    ∧ ∀ ex : LoopExit,
        (sendDisconnected (TStatus.running ex)).2 = TStatus.terminated :=
  ⟨fun _ => rfl, rfl, rfl, rfl, fun ex => by cases ex <;> rfl⟩

/-- C9: upserting any batch of 8-bit-addressed messages into the 256-slot
store is total: the bounds check never fails, the store keeps exactly 256
slots, and it never holds more than 256 occupied entries. -/
theorem upsert_batch_total (store : List (Option LedMsg)) (msgs : List LedMsg)
    (hlen : store.length = 256) (hmem : ∀ m ∈ msgs, m.element < 256) :
    ∃ st, upsertBatch store msgs = some st
      ∧ st.length = 256 ∧ occupied st ≤ 256 := by
  have key : ∀ (ms : List LedMsg) (st : List (Option LedMsg)),
      st.length = 256 → (∀ m ∈ ms, m.element < 256) →
      ∃ out, upsertBatch st ms = some out
        ∧ out.length = 256 ∧ occupied out ≤ 256 := by
    intro ms
    induction ms with
    | nil =>
      intro st h1 _
      refine ⟨st, rfl, h1, ?_⟩
      calc occupied st ≤ st.length := List.length_filterMap_le id st
        _ = 256 := h1
    | cons m rest ih =>
      intro st h1 h2
      have hm : m.element < st.length := by
        rw [h1]
        exact h2 m (List.mem_cons_self m rest)
      have hstep : upsertBatch st (m :: rest)
          = upsertBatch (st.set m.element (some m)) rest := by
        simp [upsertBatch, upsertChecked, hm]
      rw [hstep]
      exact ih _ (by rw [List.length_set]; exact h1)
        (fun x hx => h2 x (List.mem_cons_of_mem m hx))
  exact key msgs store hlen hmem

/-- Witness for C9: one message with element id 7 upserted into the empty
256-slot store. -/
theorem upsert_batch_total_wit :
    ∃ st, upsertBatch (List.replicate 256 none)
        [(⟨Command.Flat 2, 10, 1, 7⟩ : LedMsg)] = some st
      ∧ st.length = 256 ∧ occupied st ≤ 256 :=
  upsert_batch_total (List.replicate 256 none) _ (by rw [List.length_replicate])
    (by decide)

lemma greedyPack_consumed_le (hb : Bool) :
    ∀ (l : List LedMsg) (room : Nat), (greedyPack hb l room).2 ≤ l.length := by
  intro l
  induction l with
  | nil => intro room; simp [greedyPack]
  | cons m rest ih =>
    intro room
    by_cases h : msgSize hb m ≤ room
    · simp only [greedyPack, if_pos h, List.length_cons]
      exact Nat.succ_le_succ (ih (room - msgSize hb m))
    · simp [greedyPack, if_neg h]

lemma serialize_consumed_le (msgs : List LedMsg) (cap : Nat) (b : Option Nat) :
    (LedMsg.serialize msgs cap b).2 ≤ msgs.length := by
  unfold LedMsg.serialize
  split
  · exact greedyPack_consumed_le _ msgs _
  · simp

lemma serialize_consumed_pos (m : LedMsg) (rest : List LedMsg) (cap st : Nat)
    (h : headerLen (some st) + msgSize true m ≤ cap) :
    1 ≤ (LedMsg.serialize (m :: rest) cap (some st)).2 := by
  have hhd : headerLen (some st) = 4 := rfl
  have h4 : headerLen (some st) ≤ cap := le_trans (Nat.le_add_right _ _) h
  have hfit : msgSize true m ≤ cap - 4 := by omega
  unfold LedMsg.serialize
  rw [if_pos h4, hhd]
  show 1 ≤ (greedyPack true (m :: rest) (cap - 4)).2
  simp only [greedyPack, if_pos hfit]
  exact Nat.succ_le_succ (Nat.zero_le _)

lemma notifyLoop_chunks (cap st : Nat) :
    ∀ (fuel : Nat) (msgs : List LedMsg), msgs.length ≤ fuel →
      (∀ m ∈ msgs, headerLen (some st) + msgSize true m ≤ cap) →
      ∃ chunks, notifyLoop cap st fuel msgs = some chunks
        ∧ chunks.sum = msgs.length ∧ ∀ c ∈ chunks, 0 < c := by
  intro fuel
  induction fuel with
  | zero =>
    intro msgs hlen _
    have : msgs = [] := List.eq_nil_of_length_eq_zero (Nat.le_zero.mp hlen)
    subst this
    exact ⟨[], rfl, rfl, by simp⟩
  | succ fuel ih =>
    intro msgs hlen hfit
    cases msgs with
    | nil => exact ⟨[], rfl, rfl, by simp⟩
    | cons m rest =>
      have hc1 : 1 ≤ (LedMsg.serialize (m :: rest) cap (some st)).2 :=
        serialize_consumed_pos m rest cap st (hfit m (List.mem_cons_self m rest))
      have hcle := serialize_consumed_le (m :: rest) cap (some st)
      have hdroplen :
          (List.drop (LedMsg.serialize (m :: rest) cap (some st)).2
            (m :: rest)).length ≤ fuel := by
        rw [List.length_drop]
        simp only [List.length_cons] at hlen ⊢
        omega
      have hfit2 : ∀ x ∈ List.drop (LedMsg.serialize (m :: rest) cap (some st)).2
          (m :: rest), headerLen (some st) + msgSize true x ≤ cap :=
        fun x hx => hfit x (List.mem_of_mem_drop hx)
      obtain ⟨chunks, heq, hsum, hpos⟩ := ih _ hdroplen hfit2
      refine ⟨(LedMsg.serialize (m :: rest) cap (some st)).2 :: chunks, ?_, ?_, ?_⟩
      · show notifyLoop cap st (fuel + 1) (m :: rest) = _
        simp only [notifyLoop]
        rw [heq]
      · rw [List.sum_cons, hsum, List.length_drop]
        simp only [List.length_cons] at hcle ⊢
        omega
      · intro c hc
        rcases List.mem_cons.mp hc with h | h
        · exact h ▸ hc1
        · exact hpos c h

/-- C1: the per-batch notification loop terminates for every batch whenever
every message record plus the packet header fits in the chunk capacity (true
of the BLE minimum of 23 - 3 = 20 bytes): within batch-length iterations the
loop produces a chunk list, the sum of the per-chunk consumed counts equals
the batch length, and every pushed chunk consumed at least one message — even
though serialize returns a consumed count of 0 when one message plus header
does not fit. -/
theorem batch_chunking_terminates (msgs : List LedMsg) (cap st : Nat)
    (hfit : ∀ m ∈ msgs, headerLen (some st) + msgSize true m ≤ cap) :
    ∃ chunks, notifyLoop cap st msgs.length msgs = some chunks
      ∧ chunks.sum = msgs.length ∧ ∀ c ∈ chunks, 0 < c :=
  notifyLoop_chunks cap st msgs.length msgs le_rfl hfit

/-- Witness for C1: a five-message batch at the minimum BLE chunk capacity of
20 bytes is fully consumed across the produced chunks. -/
theorem batch_chunking_terminates_wit :
    ∃ chunks, notifyLoop 20 100
        ([⟨Command.Flat 1, 100, 0, 1⟩, ⟨Command.Flat 2, 101, 0, 2⟩,
          ⟨Command.Flat 3, 102, 0, 3⟩, ⟨Command.Flat 4, 103, 0, 4⟩,
          ⟨Command.Flat 5, 104, 0, 5⟩] : List LedMsg).length
        ([⟨Command.Flat 1, 100, 0, 1⟩, ⟨Command.Flat 2, 101, 0, 2⟩,
          ⟨Command.Flat 3, 102, 0, 3⟩, ⟨Command.Flat 4, 103, 0, 4⟩,
          ⟨Command.Flat 5, 104, 0, 5⟩] : List LedMsg) = some chunks
      ∧ chunks.sum =
          ([⟨Command.Flat 1, 100, 0, 1⟩, ⟨Command.Flat 2, 101, 0, 2⟩,
            ⟨Command.Flat 3, 102, 0, 3⟩, ⟨Command.Flat 4, 103, 0, 4⟩,
            ⟨Command.Flat 5, 104, 0, 5⟩] : List LedMsg).length
      ∧ ∀ c ∈ chunks, 0 < c :=
  batch_chunking_terminates _ 20 100 (by decide)

lemma wfStore_elem (store : List (Option LedMsg)) (hwf : wfStore store) :
    ∀ (j : Nat) (v : LedMsg), store[j]? = some (some v) → v.element = j := by
  intro j v hj
  have hlt : j < store.length := by
    by_contra hge
    rw [List.getElem?_eq_none (Nat.le_of_not_lt hge)] at hj
    exact Option.noConfusion hj
  have hok := hwf j hlt
  rw [List.getD_eq_getElem?_getD, hj] at hok
  simpa [slotOk] using hok

lemma collectRange_index (store : List (Option LedMsg)) (i j : Nat) (v : LedMsg)
    (hj : ((store.drop (64 * i)).take 64)[j]? = some (some v)) :
    store[64 * i + j]? = some (some v) := by
  rw [List.getElem?_take] at hj
  by_cases hjlt : j < 64
  · rw [if_pos hjlt, List.getElem?_drop] at hj
    exact hj
  · rw [if_neg hjlt] at hj
    exact Option.noConfusion hj

lemma filterMap_increasing (l : List (Option LedMsg)) (base : Nat)
    (h : ∀ (j : Nat) (v : LedMsg), l[j]? = some (some v) → v.element = base + j) :
    (l.filterMap id).Pairwise fun a b => a.element < b.element := by
  induction l generalizing base with
  | nil => simp
  | cons hd tl ih =>
    have htl : ∀ (j : Nat) (v : LedMsg), tl[j]? = some (some v) →
        v.element = (base + 1) + j := by
      intro j v hj
      have := h (j + 1) v (by simpa using hj)
      omega
    cases hd with
    | none => simpa using ih (base + 1) htl
    | some v =>
      have hv : v.element = base := by simpa using h 0 v (by simp)
      have hcons : (some v :: tl).filterMap id = v :: tl.filterMap id := by simp
      rw [hcons]
      refine List.Pairwise.cons ?_ (ih (base + 1) htl)
      intro b hb
      obtain ⟨o, ho, hob⟩ := List.mem_filterMap.mp hb
      have hsome : o = some b := by simpa using hob
      subst hsome
      obtain ⟨j, hj⟩ := List.getElem?_of_mem ho
      have := htl j b hj
      omega

/-- C8: each read-triggered snapshot over the contiguous 64-id sub-range
[64*i, 64*i + 64) of a well-formed store collects at most 64 non-empty
entries, in strictly increasing element order; the first collected entry's
timestamp is used as the codec baseline; and when the sub-range is empty the
baseline is 0 and the returned value is the serialization of an empty batch. -/
theorem read_fn_snapshot (store : List (Option LedMsg)) (i : Nat)
    (hwf : wfStore store) :
    (collectRange store i).length ≤ 64
    ∧ (collectRange store i).Pairwise (fun a b => a.element < b.element)
    ∧ (∀ (m : LedMsg) (rest : List LedMsg), collectRange store i = m :: rest →
        read_fn store i = LedMsg.serialize (m :: rest) 512 (some m.cur_time))
    ∧ (collectRange store i = [] →
        readBaseline store i = 0
        ∧ read_fn store i = LedMsg.serialize [] 512 (some 0)) := by
  refine ⟨?_, ?_, ?_, ?_⟩
  · calc (collectRange store i).length
        ≤ ((store.drop (64 * i)).take 64).length := List.length_filterMap_le _ _
      _ ≤ 64 := by rw [List.length_take]; exact min_le_left _ _
  · unfold collectRange
    apply filterMap_increasing _ (64 * i)
    intro j v hj
    have := wfStore_elem store hwf (64 * i + j) v (collectRange_index store i j v hj)
    omega
  · intro m rest hcol
    unfold read_fn readBaseline
    rw [hcol]
    rfl
  · intro hcol
    unfold read_fn readBaseline
    rw [hcol]
    exact ⟨rfl, rfl⟩

set_option maxRecDepth 8192 in
/-- Witness for C8: a 256-slot store holding one entry with element id 3
stamped 42, snapshotted over the first 64-id sub-range. -/
theorem read_fn_snapshot_wit :
    (collectRange ((List.replicate 256 none).set 3
        (some (⟨Command.Flat 1, 42, 0, 3⟩ : LedMsg))) 0).length ≤ 64
    ∧ (collectRange ((List.replicate 256 none).set 3
        (some (⟨Command.Flat 1, 42, 0, 3⟩ : LedMsg))) 0).Pairwise
        (fun a b => a.element < b.element)
    ∧ (∀ (m : LedMsg) (rest : List LedMsg),
        collectRange ((List.replicate 256 none).set 3
          (some (⟨Command.Flat 1, 42, 0, 3⟩ : LedMsg))) 0 = m :: rest →
        read_fn ((List.replicate 256 none).set 3
          (some (⟨Command.Flat 1, 42, 0, 3⟩ : LedMsg))) 0
          = LedMsg.serialize (m :: rest) 512 (some m.cur_time))
    ∧ (collectRange ((List.replicate 256 none).set 3
        (some (⟨Command.Flat 1, 42, 0, 3⟩ : LedMsg))) 0 = [] →
        readBaseline ((List.replicate 256 none).set 3
          (some (⟨Command.Flat 1, 42, 0, 3⟩ : LedMsg))) 0 = 0
        ∧ read_fn ((List.replicate 256 none).set 3
          (some (⟨Command.Flat 1, 42, 0, 3⟩ : LedMsg))) 0
          = LedMsg.serialize [] 512 (some 0)) :=
  read_fn_snapshot _ 0 (by unfold wfStore; decide)
